import Mathlib

/-!
Verification of the real-time voice-call core of the `ai-voice` repository
(browser-side call page: PCM conversion, playback queue, call state handling,
WebSocket message dispatch, and resource teardown).

The definitions below are a shallow embedding of the TypeScript source in
`frontend` (the `VoiceCallPage` component). Audio samples are modelled as
rationals: every value the code manipulates (clamped Float32 samples scaled
by 32767 or 32768) is exactly representable in double precision, so the
rational model is exact on the inputs of interest.
-/

namespace AiVoice

/-! ## PCM Framer

Embeds the sample conversions on the audio hot path:
`startAudioCapture`'s Float32 → Int16 loop (the encoder) and
`playAudioChunk`'s Int16 → Float32 loop (the decoder).
-/

/-- Clamping step of the encoder: `Math.max(-1, Math.min(1, x))`. -/
def clamp (x : ℚ) : ℚ := max (-1) (min 1 x)

/-- Truncation toward zero, the conversion JavaScript applies when a number
is stored into an `Int16Array` (`ToInt16` truncates the fractional part). -/
def truncTZ (q : ℚ) : ℤ := if 0 ≤ q then ⌊q⌋ else ⌈q⌉

/-- One step of the capture loop:
`const s = Math.max(-1, Math.min(1, inputData[i])); pcmData[i] = s < 0 ? s * 0x8000 : s * 0x7fff`.
The store into the `Int16Array` truncates toward zero. -/
def encodeSample (x : ℚ) : ℤ :=
  let s := clamp x
  truncTZ (if s < 0 then s * 32768 else s * 32767)

/-- One step of the playback conversion loop:
`floatData[i] = pcmData[i] / (pcmData[i] < 0 ? 0x8000 : 0x7fff)`. -/
def decodeSample (v : ℤ) : ℚ :=
  if v < 0 then (v : ℚ) / 32768 else (v : ℚ) / 32767

/-- Reads one little-endian signed 16-bit integer from two bytes, as the
`Int16Array` view over the received `ArrayBuffer` does. -/
def int16FromLE (lo hi : ℕ) : ℤ :=
  let u : ℕ := lo % 256 + 256 * (hi % 256)
  if u < 32768 then (u : ℤ) else (u : ℤ) - 65536

/-- Writes one signed 16-bit integer as two little-endian bytes, as the
`Int16Array` backing buffer sent over the socket lays samples out. -/
def int16ToBytesLE (v : ℤ) : List ℕ :=
  let u : ℕ := (v % 65536).toNat
  [u % 256, u / 256]

/-- The whole capture conversion: each input sample becomes one little-endian
16-bit integer, two bytes on the wire. -/
def encode (samples : List ℚ) : List ℕ :=
  (samples.map (fun x => int16ToBytesLE (encodeSample x))).flatten

/-- Interprets consecutive byte pairs as little-endian 16-bit integers and
converts each to a float, exactly as the decode loop in `playAudioChunk`
walks the `Int16Array` view. A trailing odd byte never reaches this function
(the `Int16Array` constructor rejects such buffers). -/
def decodePairs : List ℕ → List ℚ
  | lo :: hi :: rest => decodeSample (int16FromLE lo hi) :: decodePairs rest
  | _ => []

/-- Error taxonomy of the audio path (§7 of the spec). The code signals the
malformed-framing case by the `RangeError` the `Int16Array` constructor
throws on a buffer whose byte length is not a multiple of 2. -/
inductive AudioError where
  | malformedAudioError
deriving Repr, DecidableEq

/-- `decode`: the `new Int16Array(arrayBuffer)` view construction plus the
conversion loop. Fails iff the byte length is not a multiple of 2. -/
def decode (bytes : List ℕ) : Except AudioError (List ℚ) :=
  if bytes.length % 2 = 0 then .ok (decodePairs bytes)
  else .error .malformedAudioError

/-- Audio level metering from `onaudioprocess`:
`level = sum(|x|)/n`, displayed as `Math.min(level * 10, 1)`. -/
def level (samples : List ℚ) : ℚ :=
  (samples.map (fun x => |x|)).sum / samples.length

/-! ## Playback Sequencer

`audioQueueRef` is a plain mutable array; `playAudioChunk` pushes onto it and
`playNextChunk` shifts from it and starts an `AudioBufferSourceNode`. The
source nodes themselves are fire-and-forget: a started node keeps playing
until its `onended` callback fires. We therefore track, next to the queue,
the multiset of segments that have been started but have not yet ended —
the segments audibly playing at this instant. The model is polymorphic in
the segment payload (the code stores `Float32Array` chunks). -/

structure PlayerState (α : Type) where
  /-- `audioQueueRef.current`: segments pushed but not yet shifted. -/
  queue : List α
  /-- Started `AudioBufferSourceNode`s whose `onended` has not fired yet. -/
  playing : List α
deriving Repr, DecidableEq

/-- `playNextChunk`: if the queue is nonempty, shift its head and start it
(the audio-context null guard lives at the session layer, where the context
is held). -/
def playNextChunk {α : Type} (st : PlayerState α) : PlayerState α :=
  match st.queue with
  | [] => st
  | c :: rest => { queue := rest, playing := st.playing ++ [c] }

/-- `playAudioChunk`'s queueing tail: push the decoded chunk, then
`if (audioQueueRef.current.length === 1) playNextChunk()` — note the length
is tested after the push. -/
def playAudioChunk {α : Type} (st : PlayerState α) (seg : α) : PlayerState α :=
  let st' : PlayerState α := { st with queue := st.queue ++ [seg] }
  if st'.queue.length = 1 then playNextChunk st' else st'

/-- The `source.onended` callback of a started segment: that node stops
playing, then `if (audioQueueRef.current.length > 0) playNextChunk()`. -/
def onSegmentEnded {α : Type} [DecidableEq α] (st : PlayerState α) (seg : α) :
    PlayerState α :=
  let st' : PlayerState α := { st with playing := st.playing.erase seg }
  if 0 < st'.queue.length then playNextChunk st' else st'

/-! ## Call state machine and session resources

`CallState` is the component's state union; the event handlers scattered
through `VoiceCallPage` each call `setCallState` with a fixed target,
regardless of the current state. -/

inductive CallState where
  | idle | connecting | active | ending | ended
deriving Repr, DecidableEq

/-- The call-lifecycle events the component reacts to, one per handler in
the source. -/
inductive CallEvent where
  /-- `startCallMutation.onSuccess` (start request accepted). -/
  | startAccepted
  /-- `startCallMutation.onError` (start request failed). -/
  | startFailed
  /-- the `catch` in `connectWebSocket` (microphone/context acquisition failed). -/
  | acquireFailed
  /-- `ws.onopen`. -/
  | wsOpen
  /-- `ws.onerror` (sets an error message only). -/
  | wsError
  /-- `ws.onclose` (remote or local close). -/
  | wsClose
  /-- `handleEndCall` with a known call id. -/
  | endRequested
  /-- `endCallMutation.onSuccess` → `disconnectCall`. -/
  | endSucceeded
  /-- component unmount cleanup → `disconnectCall`. -/
  | unmount
deriving Repr, DecidableEq

/-- The state each handler writes via `setCallState` (`wsError` writes none).
Handlers never inspect the current state before writing. -/
def step (s : CallState) : CallEvent → CallState
  | .startAccepted => .connecting
  | .startFailed => .idle
  | .acquireFailed => .idle
  | .wsOpen => .active
  | .wsError => s
  | .wsClose => .ended
  | .endRequested => .ending
  | .endSucceeded => .ended
  | .unmount => .ended

/-- One call's mutable resource graph: the refs held by `VoiceCallPage`
plus the call state and audio level. `wsRef` is whether `wsRef.current` is
non-null; `wsOpen` is whether the socket's `readyState` is `OPEN`. -/
structure Session where
  callState : CallState
  /-- `processorRef.current !== null` -/
  processor : Bool
  /-- `mediaStreamRef.current !== null` (capture tracks live) -/
  mediaStream : Bool
  /-- `audioContextRef.current !== null` -/
  audioContext : Bool
  /-- `wsRef.current !== null` -/
  wsRef : Bool
  /-- the socket's `readyState === WebSocket.OPEN` -/
  wsOpen : Bool
  player : PlayerState (List ℚ)
  audioLevel : ℚ
deriving Repr, DecidableEq

/-- `disconnectCall`: the scoped cleanup routine. Each block is guarded by a
null check and nulls its ref; the queue is cleared, the state set to `ended`
and the level to 0. In-flight source nodes are not touched by the routine
(closing the audio context silences them, but the code does not track them),
so `playing` is left as is. -/
def disconnectCall (s : Session) : Session :=
  { callState := .ended
    processor := false
    mediaStream := false
    audioContext := false
    wsRef := false
    wsOpen := false
    player := { queue := [], playing := s.player.playing }
    audioLevel := 0 }

/-- The individual release actions `disconnectCall` can perform, for stating
that a second run performs none. -/
inductive ReleaseAction where
  | disconnectProcessor | stopMediaTracks | closeAudioContext | closeWebSocket
deriving Repr, DecidableEq

/-- The release actions a run of `disconnectCall` actually performs on `s`:
each `if (ref.current)` block acts only when its ref is non-null. -/
def disconnectCallActions (s : Session) : List ReleaseAction :=
  (if s.processor then [ReleaseAction.disconnectProcessor] else []) ++
  (if s.mediaStream then [ReleaseAction.stopMediaTracks] else []) ++
  (if s.audioContext then [ReleaseAction.closeAudioContext] else []) ++
  (if s.wsRef then [ReleaseAction.closeWebSocket] else [])

/-- `ws.onclose` at session level: only `setCallState('ended')` runs; no ref
is released and no queue is cleared. -/
def wsCloseHandler (s : Session) : Session :=
  { s with callState := .ended }

/-- Outcome of a feed/enqueue attempt, rich enough to state how the code
reacts on a closed call: the code either performs the operation, returns
silently, or (per the spec's claim) would raise a `CallClosedError`. -/
inductive OpOutcome (α : Type) where
  | performed (a : α)
  | droppedSilently
  | raisedCallClosed
deriving Repr, DecidableEq

/-- `onaudioprocess` as a feed operation: `if (ws.readyState !== WebSocket.OPEN) return;`
then the level is published and the encoded PCM is sent. The payload is the
bytes handed to `ws.send`. -/
def feedFrame (s : Session) (samples : List ℚ) : OpOutcome (List ℕ) :=
  if s.wsOpen = false then .droppedSilently
  else .performed (encode samples)

/-- `playAudioChunk` as an enqueue operation on the session:
`if (!audioContextRef.current) return;` then the bytes are decoded inside a
`try` block (a malformed buffer's `RangeError` is caught and logged, dropping
the frame) and the chunk is queued. -/
def enqueueFrame (s : Session) (bytes : List ℕ) : OpOutcome (PlayerState (List ℚ)) :=
  if s.audioContext = false then .droppedSilently
  else
    match decode bytes with
    | .error _ => .droppedSilently
    | .ok floats => .performed (playAudioChunk s.player floats)

/-- The session after a binary frame is handled: the player advances only
when the enqueue was actually performed. -/
def handleBinaryFrame (s : Session) (bytes : List ℕ) : Session :=
  match enqueueFrame s bytes with
  | .performed p => { s with player := p }
  | _ => s

/-! ## Control-message dispatch

`handleWebSocketMessage` switches on `message.type`. The source has cases
for `transcription`, `agent_response` and `error` and no `default`; a
`status` frame or any unrecognized type falls through the switch untouched.
Timestamps attached to transcript entries are wall-clock values and are left
out of the model. -/

inductive Speaker where
  | user | agent
deriving Repr, DecidableEq

structure TranscriptEntry where
  speaker : Speaker
  text : String
deriving Repr, DecidableEq

/-- The component state the message handler can write: the transcript list
and the error banner. -/
structure MsgState where
  transcript : List TranscriptEntry
  errorText : Option String
deriving Repr, DecidableEq

/-- The structured text frames of the duplex channel protocol (§6). -/
inductive WsMessage where
  | status (s : String)
  | transcription (text : String) (isFinal : Bool)
  | agentResponse (text : String)
  | errorFrame (message : String)
  | unrecognized
deriving Repr, DecidableEq

/-- The `switch (message.type)` in `handleWebSocketMessage`: a final
transcription appends a user entry, a partial one does nothing,
`agent_response` appends an agent entry, `error` stores the message, and
everything else — including `status` — falls through. -/
def handleWebSocketMessage (st : MsgState) : WsMessage → MsgState
  | .transcription t true => { st with transcript := st.transcript ++ [⟨.user, t⟩] }
  | .transcription _ false => st
  | .agentResponse t => { st with transcript := st.transcript ++ [⟨.agent, t⟩] }
  | .errorFrame m => { st with errorText := some m }
  | _ => st

/-! ## Definitions written from the spec's words

Each definition below follows a claim's wording (not the source); the
theorems compare them with the source-derived definitions above. -/

/-- Written from spec §4.5's transition table: `idle→connecting`,
`connecting→active`, `active→active` (final transcript), `active→ending`,
failure paths `connecting/active→error→ended` (the error sub-state
collapses onto its `ended` successor), `ending→ended`, and `any→ended`
(forced termination). -/
def specAllowed : CallState → CallState → Bool
  | _, .ended => true
  | .idle, .connecting => true
  | .connecting, .active => true
  | .active, .active => true
  | .active, .ending => true
  | _, _ => false

/-- Written from the amended C4 claim's words: every handler writes a state
determined by the event alone — accepted start gives `connecting` (from any
state, `ended` included), start or acquisition failure gives `idle`, channel
open gives `active`, an end request gives `ending`, channel close /
completed disconnect / unmount give `ended`, and a channel error leaves the
state unchanged. -/
def amendedStepTable (s : CallState) (e : CallEvent) (t : CallState) : Bool :=
  match e with
  | .startAccepted => decide (t = CallState.connecting)
  | .startFailed => decide (t = CallState.idle)
  | .acquireFailed => decide (t = CallState.idle)
  | .wsOpen => decide (t = CallState.active)
  | .wsError => decide (t = s)
  | .wsClose => decide (t = CallState.ended)
  | .endRequested => decide (t = CallState.ending)
  | .endSucceeded => decide (t = CallState.ended)
  | .unmount => decide (t = CallState.ended)

/-- Written from the C2 claim's words: clamp to [−1, 1], scale negative
values by 32768 and non-negative values by 32767, then round to the nearest
integer. Compared against `encodeSample` from the source. -/
def claimEncodeSample (x : ℚ) : ℤ :=
  let s := max (-1) (min 1 x)
  round (if s < 0 then s * 32768 else s * 32767)

/-- Written from the amended C2 claim's words: clamp to [−1, 1], scale
negative values by 32768 and non-negative values by 32767, then truncate
toward zero (floor for non-negative results, ceiling for negative ones). -/
def amendedEncodeSample (x : ℚ) : ℤ :=
  let s := max (-1) (min 1 x)
  let scaled := if s < 0 then s * 32768 else s * 32767
  if 0 ≤ scaled then ⌊scaled⌋ else ⌈scaled⌉

/-- The amended encoder over a whole capture buffer, each sample written as
two little-endian bytes. -/
def amendedEncode (samples : List ℚ) : List ℕ :=
  (samples.map (fun x => int16ToBytesLE (amendedEncodeSample x))).flatten

/-! ## Concrete sessions used by witnesses and counterexamples -/

/-- A live mid-call session: all resources held, socket open, call active. -/
def sessionA : Session :=
  { callState := .active, processor := true, mediaStream := true,
    audioContext := true, wsRef := true, wsOpen := true,
    player := { queue := [], playing := [] }, audioLevel := 0 }

/-- A fully torn-down session. -/
def sessionFinal : Session :=
  { callState := .ended, processor := false, mediaStream := false,
    audioContext := false, wsRef := false, wsOpen := false,
    player := { queue := [], playing := [] }, audioLevel := 0 }

/-- An idle player, for exercising the playback queue. -/
def emptyPlayer : PlayerState ℕ := { queue := [], playing := [] }

/-! ## Helper lemmas -/

theorem clamp_eq_self {x : ℚ} (h1 : -1 ≤ x) (h2 : x ≤ 1) : clamp x = x := by
  unfold clamp
  rw [min_eq_right h2, max_eq_right h1]

theorem truncTZ_intCast (n : ℤ) : truncTZ (n : ℚ) = n := by
  unfold truncTZ
  split <;> simp

/-- Decoded samples are normalized. -/
theorem decodeSample_bounds (v : ℤ) (h1 : -32768 ≤ v) (h2 : v ≤ 32767) :
    -1 ≤ decodeSample v ∧ decodeSample v ≤ 1 := by
  have h1' : (-32768 : ℚ) ≤ (v : ℚ) := by exact_mod_cast h1
  have h2' : (v : ℚ) ≤ 32767 := by exact_mod_cast h2
  unfold decodeSample
  by_cases hv : v < 0
  · have hvq : (v : ℚ) < 0 := by exact_mod_cast hv
    rw [if_pos hv]
    constructor
    · rw [le_div_iff₀ (by norm_num : (0:ℚ) < 32768)]
      linarith
    · rw [div_le_one (by norm_num : (0:ℚ) < 32768)]
      linarith
  · push_neg at hv
    have hvq : (0 : ℚ) ≤ (v : ℚ) := by exact_mod_cast hv
    rw [if_neg (not_lt.mpr hv)]
    constructor
    · rw [le_div_iff₀ (by norm_num : (0:ℚ) < 32767)]
      linarith
    · rw [div_le_one (by norm_num : (0:ℚ) < 32767)]
      linarith

/-- Any 16-bit value read out of a little-endian byte pair is in range. -/
theorem int16FromLE_bounds (lo hi : ℕ) :
    -32768 ≤ int16FromLE lo hi ∧ int16FromLE lo hi ≤ 32767 := by
  have hlo : lo % 256 < 256 := Nat.mod_lt _ (by norm_num)
  have hhi : hi % 256 < 256 := Nat.mod_lt _ (by norm_num)
  unfold int16FromLE
  simp only []
  split <;> omega

/-- Every sample produced by the decode loop arises from one byte pair. -/
theorem mem_decodePairs :
    ∀ (bytes : List ℕ) (x : ℚ), x ∈ decodePairs bytes →
      ∃ lo hi, x = decodeSample (int16FromLE lo hi)
  | [], x, h => absurd h (List.not_mem_nil x)
  | [_], x, h => absurd h (List.not_mem_nil x)
  | lo :: hi :: rest, x, h => by
      rcases List.mem_cons.mp h with h' | h'
      · exact ⟨lo, hi, h'⟩
      · exact mem_decodePairs rest x h'

/-- Encoding inverts decoding exactly on in-range 16-bit values. -/
theorem encodeSample_decodeSample (v : ℤ) (h1 : -32768 ≤ v) (h2 : v ≤ 32767) :
    encodeSample (decodeSample v) = v := by
  have h1' : (-32768 : ℚ) ≤ (v : ℚ) := by exact_mod_cast h1
  have h2' : (v : ℚ) ≤ 32767 := by exact_mod_cast h2
  unfold encodeSample decodeSample
  by_cases hv : v < 0
  · have hvq : (v : ℚ) < 0 := by exact_mod_cast hv
    rw [if_pos hv]
    have hx1 : (-1 : ℚ) ≤ (v : ℚ) / 32768 := by
      rw [le_div_iff₀ (by norm_num : (0:ℚ) < 32768)]
      linarith
    have hx2 : (v : ℚ) / 32768 ≤ 1 := by
      rw [div_le_one (by norm_num : (0:ℚ) < 32768)]
      linarith
    have hneg : (v : ℚ) / 32768 < 0 := div_neg_of_neg_of_pos hvq (by norm_num)
    simp only [clamp_eq_self hx1 hx2, if_pos hneg]
    rw [div_mul_cancel₀ _ (by norm_num : (32768:ℚ) ≠ 0), truncTZ_intCast]
  · rw [if_neg hv]
    push_neg at hv
    have hvq : (0 : ℚ) ≤ (v : ℚ) := by exact_mod_cast hv
    have hx1 : (-1 : ℚ) ≤ (v : ℚ) / 32767 := by
      rw [le_div_iff₀ (by norm_num : (0:ℚ) < 32767)]
      linarith
    have hx2 : (v : ℚ) / 32767 ≤ 1 := by
      rw [div_le_one (by norm_num : (0:ℚ) < 32767)]
      linarith
    have hnn : ¬ ((v : ℚ) / 32767 < 0) := by
      push_neg
      positivity
    simp only [clamp_eq_self hx1 hx2, if_neg hnn]
    rw [div_mul_cancel₀ _ (by norm_num : (32767:ℚ) ≠ 0), truncTZ_intCast]

/-- Decoding a flattened list of little-endian byte pairs yields one decoded
sample per pair, in order. -/
theorem decodePairs_flat (pairs : List (ℕ × ℕ)) :
    decodePairs (pairs.flatMap fun p => [p.1, p.2]) =
      pairs.map fun p => decodeSample (int16FromLE p.1 p.2) := by
  induction pairs with
  | nil => rfl
  | cons p ps ih =>
      rw [List.flatMap_cons, List.cons_append, List.cons_append, List.nil_append,
        List.map_cons]
      simp only [decodePairs]
      rw [ih]

/-- A flattened list of byte pairs has even length. -/
theorem flat_pairs_length (pairs : List (ℕ × ℕ)) :
    (pairs.flatMap fun p => [p.1, p.2]).length = 2 * pairs.length := by
  induction pairs with
  | nil => rfl
  | cons p ps ih =>
      rw [List.flatMap_cons, List.length_append, ih]
      simp only [List.length_cons, List.length_nil]
      omega

/-! ## Claim theorems -/

/-- C1: the playback queue does NOT keep at most one segment playing.
Enqueuing segment 0 into an idle player starts it and leaves the queue
empty; enqueuing segment 1 while 0 is still playing passes the
`length === 1` test again and starts 1 immediately, so both segments are in
the started-but-not-ended set at once — segment 1 began before segment 0
signalled completion, contradicting the sequencing invariant (and the
code's own `Play if not already playing` comment). -/
theorem c1_enqueue_during_playback_overlaps :
    (playAudioChunk emptyPlayer 0).playing = [0] ∧
    (playAudioChunk emptyPlayer 0).queue = [] ∧
    (playAudioChunk (playAudioChunk emptyPlayer 0) 1).playing = [0, 1] ∧
    (playAudioChunk (playAudioChunk emptyPlayer 0) 1).playing.length = 2 :=
  ⟨rfl, rfl, rfl, rfl⟩

/-- C2 counterexample: the encoder truncates toward zero rather than
rounding to the nearest integer. At input 7/10 the scaled value is
22936.9: the nearest integer is 22937 (strictly closer, as the last
conjunct shows), but the code produces 22936. -/
theorem c2_round_counterexample :
    encodeSample (7/10) = 22936 ∧ claimEncodeSample (7/10) = 22937 ∧
    encodeSample (7/10) ≠ claimEncodeSample (7/10) ∧
    |(7/10 : ℚ) * 32767 - ((22937 : ℤ) : ℚ)| <
      |(7/10 : ℚ) * 32767 - ((22936 : ℤ) : ℚ)| := by
  have hc : clamp (7/10) = 7/10 := by
    unfold clamp
    norm_num
  have h1 : encodeSample (7/10) = 22936 := by
    unfold encodeSample truncTZ
    simp only [hc]
    rw [if_neg (by norm_num : ¬ (7/10 : ℚ) < 0),
      if_pos (by norm_num : (0:ℚ) ≤ (7/10) * 32767),
      show (7/10 : ℚ) * 32767 = 229369/10 by norm_num, Int.floor_eq_iff]
    norm_num
  have h2 : claimEncodeSample (7/10) = 22937 := by
    unfold claimEncodeSample
    simp only [show max (-1 : ℚ) (min 1 (7/10)) = 7/10 by norm_num]
    rw [if_neg (by norm_num : ¬ (7/10 : ℚ) < 0), round_eq,
      show (7/10 : ℚ) * 32767 + 1/2 = 114687/5 by norm_num, Int.floor_eq_iff]
    norm_num
  refine ⟨h1, h2, by rw [h1, h2]; decide, ?_⟩
  rw [show (7/10 : ℚ) * 32767 - ((22937 : ℤ) : ℚ) = -(1/10) by push_cast; norm_num,
    show (7/10 : ℚ) * 32767 - ((22936 : ℤ) : ℚ) = 9/10 by push_cast; norm_num,
    abs_neg, abs_of_pos (by norm_num : (0:ℚ) < 1/10),
    abs_of_pos (by norm_num : (0:ℚ) < 9/10)]
  norm_num

/-- C2 (amended): the encoder clamps each sample to [−1, 1], scales negative
values by 32768 and non-negative ones by 32767, truncates toward zero, and
writes the result as a little-endian signed 16-bit integer (the byte pair
reads back to the same in-range value). -/
theorem c2_encode_clamps_scales_truncates (x : ℚ) (samples : List ℚ)
    (v : ℤ) (h1 : -32768 ≤ v) (h2 : v ≤ 32767) :
    encodeSample x = amendedEncodeSample x ∧
    encode samples = amendedEncode samples ∧
    ∃ lo hi, int16ToBytesLE v = [lo, hi] ∧ int16FromLE lo hi = v := by
  refine ⟨rfl, rfl, (v % 65536).toNat % 256, (v % 65536).toNat / 256, rfl, ?_⟩
  unfold int16FromLE
  simp only []
  split <;> omega

/-- Witness for C2's amended theorem at sample 1/4 and value −2. -/
theorem c2_encode_witness :
    (-32768 ≤ (-2 : ℤ)) ∧ ((-2 : ℤ) ≤ 32767) ∧
    (encodeSample (1/4) = amendedEncodeSample (1/4) ∧
     encode [1/4] = amendedEncode [1/4] ∧
     ∃ lo hi, int16ToBytesLE (-2) = [lo, hi] ∧ int16FromLE lo hi = -2) :=
  ⟨by norm_num, by norm_num,
    c2_encode_clamps_scales_truncates (1/4) [1/4] (-2) (by norm_num) (by norm_num)⟩

/-- C3: round-trip stability. For any in-range 16-bit value `v`, the sample
`decodeSample v` re-encodes to exactly `v`, so decoding the encoding differs
from the original by at most one quantization step (here: by zero). -/
theorem c3_roundtrip (v : ℤ) (h1 : -32768 ≤ v) (h2 : v ≤ 32767) :
    |decodeSample (encodeSample (decodeSample v)) - decodeSample v| ≤
      (if decodeSample v < 0 then (1:ℚ)/32768 else (1:ℚ)/32767) := by
  rw [encodeSample_decodeSample v h1 h2, sub_self, abs_zero]
  split <;> norm_num

/-- Witness for C3 at v = −12345. -/
theorem c3_roundtrip_witness :
    (-32768 ≤ (-12345 : ℤ)) ∧ ((-12345 : ℤ) ≤ 32767) ∧
    |decodeSample (encodeSample (decodeSample (-12345))) - decodeSample (-12345)| ≤
      (if decodeSample (-12345) < 0 then (1:ℚ)/32768 else (1:ℚ)/32767) :=
  ⟨by norm_num, by norm_num, c3_roundtrip (-12345) (by norm_num) (by norm_num)⟩

/-- C4 counterexample: two transitions the handlers perform that the §4.5
table forbids. Acquisition failure in `connecting` goes back to `idle`
(not `error→ended`), and a start accepted while `ended` goes to
`connecting` — so `ended` is not terminal. -/
theorem c4_spec_table_violated :
    step .connecting .acquireFailed = .idle ∧
    specAllowed .connecting .idle = false ∧
    step .ended .startAccepted = .connecting ∧
    specAllowed .ended .connecting = false :=
  ⟨rfl, rfl, rfl, rfl⟩

/-- C4 (amended): every handler writes a state determined by the event
alone, regardless of the current state; `ended` is not terminal and no
event is rejected. -/
theorem c4_handlers_follow_event_table (s : CallState) (e : CallEvent) :
    amendedStepTable s e (step s e) = true := by
  cases e <;> first | rfl | (cases s <;> rfl)

/-- C5 counterexample: on a torn-down call, both feed (`onaudioprocess`)
and enqueue (`playAudioChunk`) return silently — the outcome is
`droppedSilently`, which is not the `CallClosedError` outcome the claim
requires. -/
theorem c5_silently_dropped_not_error :
    feedFrame (disconnectCall sessionA) [1/2] = .droppedSilently ∧
    (OpOutcome.droppedSilently : OpOutcome (List ℕ)) ≠ OpOutcome.raisedCallClosed ∧
    enqueueFrame (disconnectCall sessionA) [0, 64] = .droppedSilently ∧
    (OpOutcome.droppedSilently : OpOutcome (PlayerState (List ℚ))) ≠
      OpOutcome.raisedCallClosed := by
  refine ⟨rfl, ?_, rfl, ?_⟩ <;> exact fun h => OpOutcome.noConfusion h

/-- C5 (amended): after teardown via `disconnectCall`, every feed is
silently dropped (the socket is no longer open) and every enqueue is
silently dropped (the audio context ref is null); no error is raised and
the session is left unchanged. -/
theorem c5_after_teardown_ops_noop (s : Session) (samples : List ℚ)
    (bytes : List ℕ) :
    feedFrame (disconnectCall s) samples = .droppedSilently ∧
    enqueueFrame (disconnectCall s) bytes = .droppedSilently ∧
    handleBinaryFrame (disconnectCall s) bytes = disconnectCall s :=
  ⟨rfl, rfl, rfl⟩

/-- C6: the decoder maps even-length byte inputs to one float per
little-endian byte pair (negative values divided by 32768, non-negative by
32767 inside `decodeSample`), fails with `malformedAudioError` on
odd-length input, and an odd frame is dropped without changing the session
— in particular without terminating the call. -/
theorem c6_decode_contract (pairs : List (ℕ × ℕ)) (bytes : List ℕ)
    (hodd : bytes.length % 2 = 1) (s : Session) :
    decode (pairs.flatMap fun p => [p.1, p.2]) =
      .ok (pairs.map fun p => decodeSample (int16FromLE p.1 p.2)) ∧
    decode bytes = .error .malformedAudioError ∧
    handleBinaryFrame s bytes = s ∧
    (handleBinaryFrame s bytes).callState = s.callState := by
  have hne : bytes.length % 2 ≠ 0 := by omega
  have hd : decode bytes = .error .malformedAudioError := by
    unfold decode
    rw [if_neg hne]
  have hb : handleBinaryFrame s bytes = s := by
    cases hac : s.audioContext <;>
      simp [handleBinaryFrame, enqueueFrame, hd, hac]
  refine ⟨?_, hd, hb, by rw [hb]⟩
  unfold decode
  rw [if_pos (by rw [flat_pairs_length]; omega), decodePairs_flat]

/-- Witness for C6 with the byte pair (57, 48) and the odd frame [5]. -/
theorem c6_decode_witness :
    ([5] : List ℕ).length % 2 = 1 ∧
    (decode (([(57, 48)] : List (ℕ × ℕ)).flatMap fun p => [p.1, p.2]) =
      .ok (([(57, 48)] : List (ℕ × ℕ)).map fun p => decodeSample (int16FromLE p.1 p.2)) ∧
     decode [5] = .error .malformedAudioError ∧
     handleBinaryFrame sessionA [5] = sessionA ∧
     (handleBinaryFrame sessionA [5]).callState = sessionA.callState) :=
  ⟨rfl, c6_decode_contract [(57, 48)] [5] rfl sessionA⟩

/-- C7 counterexample: a remote channel close (`ws.onclose`) settles the
call in `ended` while the processor node, media stream and audio context
are all still held — the cleanup routine did not run on this exit path
(its pending release-action list is nonempty). -/
theorem c7_remote_close_leaks :
    (wsCloseHandler sessionA).callState = .ended ∧
    (wsCloseHandler sessionA).processor = true ∧
    (wsCloseHandler sessionA).mediaStream = true ∧
    (wsCloseHandler sessionA).audioContext = true ∧
    disconnectCallActions (wsCloseHandler sessionA) ≠ [] := by
  refine ⟨rfl, rfl, rfl, rfl, ?_⟩
  intro h
  exact List.noConfusion h

/-- C7 (amended): on the exit paths that invoke it (caller-initiated end
and unmount), the single scoped cleanup routine `disconnectCall` releases
every owned resource — processor, media stream, audio context, socket and
playback queue — and settles the call in `ended`, leaving no release
action pending. -/
theorem c7_disconnect_releases_all (s : Session) :
    (disconnectCall s).callState = .ended ∧
    (disconnectCall s).processor = false ∧
    (disconnectCall s).mediaStream = false ∧
    (disconnectCall s).audioContext = false ∧
    (disconnectCall s).wsRef = false ∧
    (disconnectCall s).wsOpen = false ∧
    (disconnectCall s).player.queue = [] ∧
    disconnectCallActions (disconnectCall s) = [] :=
  ⟨rfl, rfl, rfl, rfl, rfl, rfl, rfl, rfl⟩

/-- C8 counterexample: a `status` frame changes nothing — it is handled
identically to an unrecognized frame, so the client does not update any
displayed status for it, contradicting the claim's fourth variant. -/
theorem c8_status_frame_ignored :
    handleWebSocketMessage ⟨[], none⟩ (.status "listening") = (⟨[], none⟩ : MsgState) ∧
    handleWebSocketMessage ⟨[], none⟩ (.status "listening") =
      handleWebSocketMessage ⟨[], none⟩ .unrecognized :=
  ⟨rfl, rfl⟩

/-- C8 (amended): the dispatch handles exactly three variants —
`transcription` appends a user entry only when `is_final` is true (a
partial transcript changes nothing), `agent_response` appends an agent
entry, `error` stores the message — while `status` and unrecognized frames
are silently ignored; the stored transcript only ever grows at the tail. -/
theorem c8_dispatch_three_variants (st : MsgState) (t m : String) :
    handleWebSocketMessage st (.status m) = st ∧
    handleWebSocketMessage st (.transcription t false) = st ∧
    handleWebSocketMessage st (.transcription t true) =
      { st with transcript := st.transcript ++ [⟨.user, t⟩] } ∧
    handleWebSocketMessage st (.agentResponse t) =
      { st with transcript := st.transcript ++ [⟨.agent, t⟩] } ∧
    handleWebSocketMessage st (.errorFrame m) = { st with errorText := some m } ∧
    ∀ msg : WsMessage, ∃ tail,
      (handleWebSocketMessage st msg).transcript = st.transcript ++ tail := by
  refine ⟨rfl, rfl, rfl, rfl, rfl, ?_⟩
  intro msg
  cases msg with
  | status s => exact ⟨[], by simp [handleWebSocketMessage]⟩
  | transcription t' b =>
      cases b
      · exact ⟨[], by simp [handleWebSocketMessage]⟩
      · exact ⟨[⟨.user, t'⟩], rfl⟩
  | agentResponse t' => exact ⟨[⟨.agent, t'⟩], rfl⟩
  | errorFrame m' => exact ⟨[], by simp [handleWebSocketMessage]⟩
  | unrecognized => exact ⟨[], by simp [handleWebSocketMessage]⟩

/-- C9: every in-range signed 16-bit value decodes into [−1, 1], and hence
every frame the decode loop produces consists only of normalized samples. -/
theorem c9_decoded_normalized (v : ℤ) (h1 : -32768 ≤ v) (h2 : v ≤ 32767) :
    (-1 ≤ decodeSample v ∧ decodeSample v ≤ 1) ∧
    ∀ (bytes : List ℕ), ∀ x ∈ decodePairs bytes, -1 ≤ x ∧ x ≤ 1 := by
  refine ⟨decodeSample_bounds v h1 h2, ?_⟩
  intro bytes x hx
  obtain ⟨lo, hi, rfl⟩ := mem_decodePairs bytes x hx
  exact decodeSample_bounds _ (int16FromLE_bounds lo hi).1 (int16FromLE_bounds lo hi).2

/-- Witness for C9 at v = −32768 (the most negative sample). -/
theorem c9_decoded_normalized_witness :
    (-32768 ≤ (-32768 : ℤ)) ∧ ((-32768 : ℤ) ≤ 32767) ∧
    ((-1 ≤ decodeSample (-32768) ∧ decodeSample (-32768) ≤ 1) ∧
     ∀ (bytes : List ℕ), ∀ x ∈ decodePairs bytes, -1 ≤ x ∧ x ≤ 1) :=
  ⟨by norm_num, by norm_num,
    c9_decoded_normalized (-32768) (by norm_num) (by norm_num)⟩

/-- C10: when every resource ref is already null and the queue is empty and
the call has settled (`ended`, level 0), `disconnectCall` performs no
release action and returns the session unchanged; running the routine twice
always equals running it once. -/
theorem c10_disconnect_idempotent (s : Session)
    (h : s.processor = false ∧ s.mediaStream = false ∧ s.audioContext = false ∧
      s.wsRef = false ∧ s.wsOpen = false ∧ s.player.queue = [] ∧
      s.callState = .ended ∧ s.audioLevel = 0) :
    disconnectCallActions s = [] ∧ disconnectCall s = s ∧
    ∀ t : Session, disconnectCall (disconnectCall t) = disconnectCall t := by
  obtain ⟨h1, h2, h3, h4, h5, h6, h7, h8⟩ := h
  refine ⟨?_, ?_, fun t => rfl⟩
  · simp [disconnectCallActions, h1, h2, h3, h4]
  · obtain ⟨cs, p, ms, ac, wr, wo, pl, al⟩ := s
    obtain ⟨q, pg⟩ := pl
    simp_all [disconnectCall]

/-- Witness for C10 on the fully torn-down session. -/
theorem c10_disconnect_idempotent_witness :
    (sessionFinal.processor = false ∧ sessionFinal.mediaStream = false ∧
     sessionFinal.audioContext = false ∧ sessionFinal.wsRef = false ∧
     sessionFinal.wsOpen = false ∧ sessionFinal.player.queue = [] ∧
     sessionFinal.callState = .ended ∧ sessionFinal.audioLevel = 0) ∧
    (disconnectCallActions sessionFinal = [] ∧
     disconnectCall sessionFinal = sessionFinal ∧
     ∀ t : Session, disconnectCall (disconnectCall t) = disconnectCall t) :=
  ⟨⟨rfl, rfl, rfl, rfl, rfl, rfl, rfl, rfl⟩,
    c10_disconnect_idempotent sessionFinal ⟨rfl, rfl, rfl, rfl, rfl, rfl, rfl, rfl⟩⟩

end AiVoice
